import Mathlib

/-!
Shallow embedding of the `onlinecourse` Django application
(`onlinecourse/models.py`, `onlinecourse/views.py`, `onlinecourse/urls.py`).

The database is modelled as a `Store` holding one list per table.  Model rows
are structures keeping exactly the columns the application logic reads or
writes; presentation-only columns (course name, image, description, pub_date,
lesson contents, question text, choice text, enrollment date and rating) are
omitted because no view logic depends on them.  ORM queries become list
filters; `Model.objects.get` becomes a three-way match returning either the
unique row, a `DoesNotExist` failure, or a `MultipleObjectsReturned` failure,
exactly as Django raises them; `get_object_or_404` returns an `Http404`
failure when the lookup misses.  `Http404` is the only failure Django turns
into a "not found" (404) response; the other exceptions propagate uncaught to
the framework's default server-error handler.
-/

namespace OnlineCourse

/-- A row of Django's built-in `auth_user` table (`django.contrib.auth.models.User`),
with the columns `registration_request` writes (`create_user(username,
first_name, last_name, password)`).  Django enforces uniqueness of `username`
at the database level. -/
structure Account where
  username : String
  first_name : String
  last_name : String
  password : String
deriving DecidableEq, Repr

/-- Row type of `models.Course`: primary key plus the denormalized `total_enrollment`
counter (`IntegerField(default=0)`, hence `Int`).  Presentation-only columns
are omitted. -/
structure Course where
  id : Nat
  total_enrollment : Int
deriving DecidableEq, Repr

/-- Row type of `models.Enrollment`: the through table joining users and courses, with the
`mode` column (`CharField` with choices audit/honor/BETA).  `date_enrolled` and
`rating` are omitted (never read by the views). -/
structure Enrollment where
  id : Nat
  user : Nat
  course : Nat
  mode : String
deriving DecidableEq, Repr

/-- Row type of `models.Question`: foreign key to its course and the `grade` point value
(`IntegerField(default=50)`, hence `Int`).  The question text is omitted. -/
structure Question where
  id : Nat
  course : Nat
  grade : Int
deriving DecidableEq, Repr

/-- Row type of `models.Choice`: foreign key to its question and the `is_correct` flag.
The choice text is omitted. -/
structure Choice where
  id : Nat
  question : Nat
  is_correct : Bool
deriving DecidableEq, Repr

/-- Row type of `models.Submission`: foreign key to an enrollment plus the many-to-many
relation to `Choice`, stored as the list of selected choice ids. -/
structure Submission where
  id : Nat
  enrollment : Nat
  choices : List Nat
deriving DecidableEq, Repr

/-- The persistent store: one list per table. -/
structure Store where
  accounts : List Account
  courses : List Course
  enrollments : List Enrollment
  questions : List Question
  choices : List Choice
  submissions : List Submission
deriving DecidableEq, Repr

/-- The failures a view can produce.  `http404` is the `Http404` exception
raised by `get_object_or_404` (rendered by Django as the standard 404
"not found" response); `doesNotExist` and `multipleObjectsReturned` are the
ORM exceptions raised by `Model.objects.get`, which no view catches, so they
propagate to the framework's default server-error response. -/
inductive ViewError where
  | http404
  | doesNotExist
  | multipleObjectsReturned
deriving DecidableEq, Repr

/-- Embeds `get_object_or_404(Course, pk=course_id)`: look the course up by primary
key.  Primary keys are unique, so `find?` returns the row when it exists. -/
def findCourse (s : Store) (course_id : Nat) : Option Course :=
  s.courses.find? (fun c => c.id == course_id)

/-- Embeds `views.check_if_enrolled(user, course)`:
`Enrollment.objects.filter(user=user, course=course).count() > 0`. -/
def check_if_enrolled (u : Nat) (course_id : Nat) (s : Store) : Bool :=
  decide (0 < (s.enrollments.filter (fun e => e.user == u && e.course == course_id)).length)

/-- Fresh primary key for a created `Enrollment` row (auto-increment). -/
def freshEnrollmentId (s : Store) : Nat :=
  s.enrollments.foldl (fun m e => max m (e.id + 1)) 0

/-- Fresh primary key for a created `Submission` row (auto-increment). -/
def freshSubmissionId (s : Store) : Nat :=
  s.submissions.foldl (fun m e => max m (e.id + 1)) 0

/-- Embeds `views.enroll(request, course_id)`.  `get_object_or_404` on the course;
when the requester is authenticated and `check_if_enrolled` is false, create
an `Enrollment` row with mode "honor", increment the in-memory course's
`total_enrollment` and save it (`course.save()` writes the row with the
course's primary key).  In every non-404 case the view redirects, returning
the (possibly updated) store. -/
def enroll (authenticated : Bool) (u : Nat) (course_id : Nat) (s : Store) :
    Except ViewError Store :=
  match findCourse s course_id with
  | none => .error .http404
  | some course =>
    if authenticated && !(check_if_enrolled u course.id s) then
      let row : Enrollment :=
        { id := freshEnrollmentId s, user := u, course := course.id, mode := "honor" }
      let saved : Course := { course with total_enrollment := course.total_enrollment + 1 }
      .ok { s with
            enrollments := s.enrollments ++ [row],
            courses := s.courses.map (fun c => if c.id == course.id then saved else c) }
    else
      .ok s

/-- The response of `registration_request` on POST: either a redirect to the
index (new account created and logged in) or the registration form rendered
again with a message. -/
inductive RegResponse where
  | redirectIndex
  | registrationForm (message : String)
deriving DecidableEq, Repr

/-- Embeds `views.registration_request` on POST.  `User.objects.get(username=...)`
inside try/except `User.DoesNotExist` decides `user_exist`; with zero matches
the account is created (`create_user`) and logged in (`login`), with one match
the form is redisplayed with a message, and with several matches the uncaught
`MultipleObjectsReturned` exception propagates (Django's unique constraint on
usernames makes that case unreachable in practice).  The session is modelled
as the logged-in username, `none` when anonymous. -/
def registration_request_post (username first_name last_name psw : String)
    (s : Store) (session : Option String) :
    Except ViewError (Store × Option String × RegResponse) :=
  match s.accounts.filter (fun a => a.username == username) with
  | [] =>
    let user : Account :=
      { username := username, first_name := first_name, last_name := last_name, password := psw }
    .ok ({ s with accounts := s.accounts ++ [user] }, some username, .redirectIndex)
  | [_] => .ok (s, session, .registrationForm "El nombre de usuario ya existe.")
  | _ => .error .multipleObjectsReturned

/-- Embeds `views.extract_answers(request)`: collect the (already int-parsed) value of
every POST field whose key starts with "choice". -/
def extract_answers (post : List (String × Nat)) : List Nat :=
  ((post.filter (fun kv => kv.fst.startsWith "choice")).map (fun kv => kv.snd))

/-- Embeds `Enrollment.objects.get(user=user, course=course)`: the unique matching
row, or the corresponding ORM exception. -/
def enrollment_get (s : Store) (u : Nat) (course_id : Nat) : Except ViewError Enrollment :=
  match s.enrollments.filter (fun e => e.user == u && e.course == course_id) with
  | [] => .error .doesNotExist
  | [e] => .ok e
  | _ => .error .multipleObjectsReturned

/-- Embeds `views.submit(request, course_id)`.  `get_object_or_404` on the course,
`Enrollment.objects.get` for the requester's enrollment (uncaught exception
when it misses), then create a `Submission` tied to that enrollment, associate
the extracted choice ids, and redirect carrying the new submission id.  The
result pairs the store after the request with either the redirect's submission
id or the failure; on failure the store is unchanged (the exception aborts the
view before any write). -/
def submit (u : Nat) (course_id : Nat) (post : List (String × Nat)) (s : Store) :
    Store × Except ViewError Nat :=
  match findCourse s course_id with
  | none => (s, .error .http404)
  | some course =>
    match enrollment_get s u course.id with
    | .error err => (s, .error err)
    | .ok enr =>
      let sid := freshSubmissionId s
      let sub : Submission := { id := sid, enrollment := enr.id, choices := extract_answers post }
      ({ s with submissions := s.submissions ++ [sub] }, .ok sid)

/-- Embeds `question.choice_set.all()`: the choices whose foreign key is this
question. -/
def choice_set (s : Store) (q : Question) : List Choice :=
  s.choices.filter (fun c => c.question == q.id)

/-- Embeds `question.choice_set.filter(is_correct=True)`. -/
def correct_choices (s : Store) (q : Question) : List Choice :=
  (choice_set s q).filter (fun c => c.is_correct)

/-- Embeds `models.Question.is_get_score(self, selected_ids)`: count the question's
correct choices (`all_answers`), count the correct choices whose id is in
`selected_ids` (`selected_correct`, via `id__in`), and return whether the two
counts are equal. -/
def Question.is_get_score (q : Question) (s : Store) (selected_ids : List Nat) : Bool :=
  let all_answers := ((choice_set s q).filter (fun c => c.is_correct)).length
  let selected_correct :=
    ((choice_set s q).filter (fun c => c.is_correct && selected_ids.contains c.id)).length
  all_answers == selected_correct

/-- The per-question comparison in `views.show_exam_result`:
`set(correct_choices) == set(user_choices_for_question)` where
`user_choices_for_question = selected_choices.filter(question=question)`.
Python compares the two sets of rows, modelled as `Finset` equality. -/
def questionMatches (s : Store) (selected_choices : List Choice) (q : Question) : Bool :=
  decide ((correct_choices s q).toFinset
    = (selected_choices.filter (fun c => c.question == q.id)).toFinset)

/-- The points the result page awards for one question: the question's grade
when the set comparison succeeds, otherwise nothing. -/
def awardedPoints (s : Store) (selected_choices : List Choice) (q : Question) : Int :=
  if questionMatches s selected_choices q then q.grade else 0

/-- Embeds `course.question_set.all()`: the questions whose foreign key is this
course. -/
def question_set (s : Store) (course_id : Nat) : List Question :=
  s.questions.filter (fun q => q.course == course_id)

/-- The `total_score` accumulation loop of `views.show_exam_result`: starting
from 0, add `question.grade` for every question whose set comparison
succeeds. -/
def exam_total_score (s : Store) (selected_choices : List Choice) (questions : List Question) : Int :=
  questions.foldl (fun acc q => if questionMatches s selected_choices q then acc + q.grade else acc) 0

/-- The context `views.show_exam_result` renders: the course, the computed
total score (`grade`), and the learner's selected choices. -/
structure ExamResultContext where
  course : Course
  grade : Int
  choices : List Choice
deriving DecidableEq, Repr

/-- Embeds `views.show_exam_result(request, course_id, submission_id)`.
`get_object_or_404` on the course (`Http404` when unknown), then
`Submission.objects.get(id=submission_id)` — a plain `get`, so an unknown
submission id raises `DoesNotExist`, which is not caught (primary keys are
unique, so several matches cannot occur and `find?` models the lookup).  On
success, grade every question of the course by set comparison and render the
context. -/
def show_exam_result (course_id submission_id : Nat) (s : Store) :
    Except ViewError ExamResultContext :=
  match findCourse s course_id with
  | none => .error .http404
  | some course =>
    match s.submissions.find? (fun sub => sub.id == submission_id) with
    | none => .error .doesNotExist
    | some submission =>
      let selected_choices := s.choices.filter (fun c => submission.choices.contains c.id)
      .ok { course := course,
            grade := exam_total_score s selected_choices (question_set s course.id),
            choices := selected_choices }

/-- One entry of the course list: the course together with the `is_enrolled`
attribute the view sets on it.  The class attribute `Course.is_enrolled`
defaults to `False`, so an unauthenticated viewer sees `false`. -/
structure AnnotatedCourse where
  course : Course
  is_enrolled : Bool
deriving DecidableEq, Repr

/-- The `order_by('-total_enrollment')` ordering: descending on the
counter. -/
def byEnrollmentDesc (a b : Course) : Prop :=
  b.total_enrollment ≤ a.total_enrollment

instance : DecidableRel byEnrollmentDesc :=
  fun a b => Int.decLe b.total_enrollment a.total_enrollment

instance : IsTotal Course byEnrollmentDesc :=
  ⟨fun a b => (le_total a.total_enrollment b.total_enrollment).symm⟩

instance : IsTrans Course byEnrollmentDesc :=
  ⟨fun _ _ _ hab hbc => le_trans hbc hab⟩

/-- Embeds `views.CourseListView.get_queryset`:
`Course.objects.order_by('-total_enrollment')[:10]` (the database only
guarantees a list sorted descending on the counter, modelled by a stable
sort), then, when the viewer is authenticated, set
`course.is_enrolled = check_if_enrolled(user, course)` on each returned
course. -/
def get_queryset (authenticated : Bool) (u : Nat) (s : Store) : List AnnotatedCourse :=
  let courses := (s.courses.insertionSort byEnrollmentDesc).take 10
  courses.map (fun c => { course := c, is_enrolled := authenticated && check_if_enrolled u c.id s })

/-- The `total_enrollment` counter currently stored for a course id, when the
course exists. -/
def totalEnrollmentOf (s : Store) (course_id : Nat) : Option Int :=
  (findCourse s course_id).map (fun c => c.total_enrollment)

/-- The enrollment rows for one (user, course) pair. -/
def pairRows (u : Nat) (course_id : Nat) (s : Store) : List Enrollment :=
  s.enrollments.filter (fun e => e.user == u && e.course == course_id)

/-- Decidable equality of view outcomes, so concrete runs can be checked by
`decide`. -/
instance {ε α : Type} [DecidableEq ε] [DecidableEq α] : DecidableEq (Except ε α)
  | .ok x, .ok y =>
    match decEq x y with
    | isTrue h => isTrue (h ▸ rfl)
    | isFalse h => isFalse (fun hc => h (Except.ok.inj hc))
  | .error x, .error y =>
    match decEq x y with
    | isTrue h => isTrue (h ▸ rfl)
    | isFalse h => isFalse (fun hc => h (Except.error.inj hc))
  | .ok _, .error _ => isFalse (fun hc => Except.noConfusion hc)
  | .error _, .ok _ => isFalse (fun hc => Except.noConfusion hc)

/-! Concrete stores used to evaluate the development on closed inputs. -/

/-- A course with two questions (grades 50 and 30): question 1 has correct
choice 1 and incorrect choice 2, question 2 has correct choice 3; one
submission selected exactly choice 1. -/
def examStore : Store :=
  { accounts := [],
    courses := [{ id := 1, total_enrollment := 0 }],
    enrollments := [{ id := 1, user := 1, course := 1, mode := "honor" }],
    questions := [{ id := 1, course := 1, grade := 50 }, { id := 2, course := 1, grade := 30 }],
    choices := [{ id := 1, question := 1, is_correct := true },
                { id := 2, question := 1, is_correct := false },
                { id := 3, question := 2, is_correct := true }],
    submissions := [{ id := 1, enrollment := 1, choices := [1] }] }

/-- Like `examStore` but the single question carries grade 0, and the
submission selected exactly its correct choice. -/
def zeroGradeStore : Store :=
  { accounts := [],
    courses := [{ id := 1, total_enrollment := 0 }],
    enrollments := [{ id := 1, user := 1, course := 1, mode := "honor" }],
    questions := [{ id := 1, course := 1, grade := 0 }],
    choices := [{ id := 1, question := 1, is_correct := true }],
    submissions := [{ id := 1, enrollment := 1, choices := [1] }] }

/-- A question with two correct choices (ids 1 and 2) and one incorrect
choice (id 3). -/
def disagreeStore : Store :=
  { accounts := [],
    courses := [{ id := 1, total_enrollment := 0 }],
    enrollments := [],
    questions := [{ id := 1, course := 1, grade := 50 }],
    choices := [{ id := 1, question := 1, is_correct := true },
                { id := 2, question := 1, is_correct := true },
                { id := 3, question := 1, is_correct := false }],
    submissions := [] }

/-- A question none of whose choices is correct. -/
def noCorrectStore : Store :=
  { accounts := [],
    courses := [{ id := 1, total_enrollment := 0 }],
    enrollments := [],
    questions := [{ id := 1, course := 1, grade := 50 }],
    choices := [{ id := 1, question := 1, is_correct := false },
                { id := 2, question := 1, is_correct := false }],
    submissions := [] }

/-- A course (id 7, counter 3) in which user 2 — but not user 1 — is
enrolled. -/
def enrollStore : Store :=
  { accounts := [],
    courses := [{ id := 7, total_enrollment := 3 }],
    enrollments := [{ id := 1, user := 2, course := 7, mode := "audit" }],
    questions := [],
    choices := [],
    submissions := [] }

/-- The store `enroll` produces from `enrollStore` for user 1 and course 7:
one new honor-mode enrollment row and the counter bumped to 4. -/
def postEnrollStore : Store :=
  { accounts := [],
    courses := [{ id := 7, total_enrollment := 4 }],
    enrollments := [{ id := 1, user := 2, course := 7, mode := "audit" },
                    { id := 2, user := 1, course := 7, mode := "honor" }],
    questions := [],
    choices := [],
    submissions := [] }

/-- A store with one registered account named "ana". -/
def regStore : Store :=
  { accounts := [{ username := "ana", first_name := "Ana", last_name := "B", password := "pw" }],
    courses := [],
    enrollments := [],
    questions := [],
    choices := [],
    submissions := [] }

/-- An entirely empty store. -/
def emptyStore : Store :=
  { accounts := [], courses := [], enrollments := [], questions := [],
    choices := [], submissions := [] }

/-- Three courses with distinct enrollment counters; user 1 is enrolled in
course 2 only. -/
def listStore : Store :=
  { accounts := [],
    courses := [{ id := 1, total_enrollment := 5 }, { id := 2, total_enrollment := 9 },
                { id := 3, total_enrollment := 1 }],
    enrollments := [{ id := 1, user := 1, course := 2, mode := "honor" }],
    questions := [],
    choices := [],
    submissions := [] }

/-! Helper lemmas shared by several claims. -/

/-- Mapping a function that preserves a predicate through a list commutes
with `find?` on that predicate. -/
theorem find?_map_of_pred {α : Type} (f : α → α) (p : α → Bool)
    (h : ∀ a, p (f a) = p a) :
    ∀ l : List α, (l.map f).find? p = (l.find? p).map f := by
  intro l
  induction l with
  | nil => rfl
  | cons a l ih =>
    simp only [List.map_cons, List.find?_cons, h a]
    cases hp : p a <;> simp [ih]

/-- The `total_score` loop of `show_exam_result`, started from any
accumulator, adds the sum of the per-question awarded points. -/
theorem exam_total_score_loop (s : Store) (sel : List Choice) (qs : List Question) (a : Int) :
    qs.foldl (fun acc q => if questionMatches s sel q then acc + q.grade else acc) a
      = a + (qs.map (awardedPoints s sel)).sum := by
  induction qs generalizing a with
  | nil => simp
  | cons q qs ih =>
    simp only [List.foldl_cons, List.map_cons, List.sum_cons, awardedPoints]
    by_cases h : questionMatches s sel q = true
    · rw [if_pos h, if_pos h, ih]; ring
    · rw [if_neg h, if_neg h, ih]; ring

/-- The rendered total score is the sum of the per-question awarded points. -/
theorem exam_total_score_eq_sum (s : Store) (sel : List Choice) (qs : List Question) :
    exam_total_score s sel qs = (qs.map (awardedPoints s sel)).sum := by
  rw [exam_total_score, exam_total_score_loop]; ring

/-- C10: for a question that has zero correct choices, `is_get_score` returns
`True` for every possible list of selected choice identifiers, because both
compared counts are 0. -/
theorem is_get_score_no_correct_choices (s : Store) (q : Question) (selected_ids : List Nat)
    (h : correct_choices s q = []) :
    q.is_get_score s selected_ids = true := by
  have h0 : ∀ c ∈ choice_set s q, ¬ c.is_correct = true := by
    rw [correct_choices, List.filter_eq_nil_iff] at h
    simpa using h
  have h1 : (choice_set s q).filter (fun c => c.is_correct && selected_ids.contains c.id) = [] := by
    rw [List.filter_eq_nil_iff]
    intro c hc
    simp [h0 c hc]
  rw [correct_choices] at h
  simp only [Question.is_get_score]
  rw [h, h1]
  rfl

/-- C10 witness: a concrete question whose two choices are both incorrect
passes `is_get_score` with the empty selection and with a selection of its
incorrect choices. -/
theorem is_get_score_no_correct_choices_witness :
    correct_choices noCorrectStore { id := 1, course := 1, grade := 50 } = []
    ∧ Question.is_get_score { id := 1, course := 1, grade := 50 } noCorrectStore [] = true
    ∧ Question.is_get_score { id := 1, course := 1, grade := 50 } noCorrectStore [1, 2] = true :=
  ⟨by decide,
   is_get_score_no_correct_choices noCorrectStore _ [] (by decide),
   is_get_score_no_correct_choices noCorrectStore _ [1, 2] (by decide)⟩

/-- C3: `is_get_score` returns `True` exactly when the number of correct
choices of the question equals the number of selected identifiers that are
correct choices of that question.  Selected identifiers are counted as a set
(a repeated identifier denotes the same choice row), and choice primary keys
are pairwise distinct, as the database guarantees. -/
theorem is_get_score_iff_correct_counts (s : Store) (q : Question) (selected_ids : List Nat)
    (hids : (s.choices.map (fun c => c.id)).Nodup) :
    q.is_get_score s selected_ids = true ↔
      (correct_choices s q).length
        = (selected_ids.toFinset.filter
            (fun i => i ∈ (correct_choices s q).map (fun c => c.id))).card := by
  have eA : (choice_set s q).filter (fun c => c.is_correct && selected_ids.contains c.id)
      = (correct_choices s q).filter (fun c => selected_ids.contains c.id) := by
    rw [correct_choices, List.filter_filter]
    exact List.filter_congr (fun c _ => Bool.and_comm _ _)
  have hLsub : List.Sublist (correct_choices s q) s.choices :=
    (List.filter_sublist _).trans (List.filter_sublist _)
  have hLidsNodup : ((correct_choices s q).map (fun c => c.id)).Nodup :=
    List.Nodup.sublist (hLsub.map (fun c => c.id)) hids
  have hfSub : List.Sublist
      (((correct_choices s q).filter (fun c => selected_ids.contains c.id)).map (fun c => c.id))
      ((correct_choices s q).map (fun c => c.id)) :=
    List.Sublist.map (fun c => c.id)
      (List.filter_sublist (correct_choices s q))
  have hfNodup :
      (((correct_choices s q).filter (fun c => selected_ids.contains c.id)).map
        (fun c => c.id)).Nodup :=
    List.Nodup.sublist hfSub hLidsNodup
  have eB : (((correct_choices s q).filter (fun c => selected_ids.contains c.id)).map
        (fun c => c.id)).toFinset
      = selected_ids.toFinset.filter
          (fun i => i ∈ (correct_choices s q).map (fun c => c.id)) := by
    ext i
    simp only [List.mem_toFinset, Finset.mem_filter, List.mem_map, List.mem_filter]
    constructor
    · rintro ⟨c, ⟨hcL, hsel⟩, rfl⟩
      exact ⟨by simpa using hsel, ⟨c, hcL, rfl⟩⟩
    · rintro ⟨hisel, ⟨c, hcL, rfl⟩⟩
      exact ⟨c, ⟨hcL, by simpa using hisel⟩, rfl⟩
  have eCard : (selected_ids.toFinset.filter
        (fun i => i ∈ (correct_choices s q).map (fun c => c.id))).card
      = ((correct_choices s q).filter (fun c => selected_ids.contains c.id)).length := by
    rw [← eB, List.toFinset_card_of_nodup hfNodup, List.length_map]
  simp only [Question.is_get_score, eA, beq_iff_eq, eCard]
  rw [correct_choices]

/-- C3 witness: on a concrete question with correct choices 1 and 2, selecting
exactly the identifiers 1 and 2 makes both counts 2 and `is_get_score`
returns `True`. -/
theorem is_get_score_iff_correct_counts_witness :
    (disagreeStore.choices.map (fun c => c.id)).Nodup
    ∧ (Question.is_get_score { id := 1, course := 1, grade := 50 } disagreeStore [1, 2] = true ↔
        (correct_choices disagreeStore { id := 1, course := 1, grade := 50 }).length
          = (([1, 2] : List Nat).toFinset.filter
              (fun i => i ∈ (correct_choices disagreeStore
                  { id := 1, course := 1, grade := 50 }).map (fun c => c.id))).card) :=
  ⟨by decide, is_get_score_iff_correct_counts disagreeStore _ [1, 2] (by decide)⟩

/-- C2: the two grading evaluators disagree.  For a question with at least one
correct choice, selecting all its correct choices plus one extra incorrect
choice of the same question passes the count-based `is_get_score` but fails
the set-equality comparison used by `show_exam_result`. -/
theorem grading_evaluators_disagree (s : Store) (q : Question) (e : Choice)
    (hcorr : correct_choices s q ≠ [])
    (he : e ∈ s.choices) (heq : e.question = q.id) (hwrong : e.is_correct = false) :
    q.is_get_score s ((correct_choices s q).map (fun c => c.id) ++ [e.id]) = true
    ∧ questionMatches s
        (s.choices.filter
          (fun c => ((correct_choices s q).map (fun c2 => c2.id) ++ [e.id]).contains c.id))
        q = false := by
  constructor
  · have e1 : (choice_set s q).filter
        (fun c => c.is_correct
          && ((correct_choices s q).map (fun c2 => c2.id) ++ [e.id]).contains c.id)
        = (choice_set s q).filter (fun c => c.is_correct) := by
      apply List.filter_congr
      intro c hc
      cases hcval : c.is_correct with
      | false => simp
      | true =>
        have hmem : c ∈ correct_choices s q := by
          rw [correct_choices, List.mem_filter]
          exact ⟨hc, hcval⟩
        have hid : c.id ∈ (correct_choices s q).map (fun c2 => c2.id) ++ [e.id] :=
          List.mem_append_left _ (List.mem_map_of_mem _ hmem)
        simp [hid]
    simp only [Question.is_get_score]
    rw [e1]
    simp
  · have hsel : e ∈ s.choices.filter
        (fun c => ((correct_choices s q).map (fun c2 => c2.id) ++ [e.id]).contains c.id) := by
      rw [List.mem_filter]
      refine ⟨he, ?_⟩
      simp
    have heQ : e ∈ (s.choices.filter
        (fun c => ((correct_choices s q).map (fun c2 => c2.id) ++ [e.id]).contains c.id)).filter
          (fun c => c.question == q.id) := by
      rw [List.mem_filter]
      exact ⟨hsel, by simp [heq]⟩
    have heNot : e ∉ correct_choices s q := by
      rw [correct_choices, List.mem_filter]
      rintro ⟨-, habs⟩
      rw [hwrong] at habs
      exact Bool.false_ne_true habs
    have hne : (correct_choices s q).toFinset
        ≠ ((s.choices.filter
            (fun c => ((correct_choices s q).map (fun c2 => c2.id) ++ [e.id]).contains c.id)).filter
              (fun c => c.question == q.id)).toFinset := by
      intro hEq
      apply heNot
      rw [← List.mem_toFinset, hEq, List.mem_toFinset]
      exact heQ
    rw [questionMatches]
    exact decide_eq_false hne

/-- C2 witness: for the concrete question with correct choices 1, 2 and
incorrect choice 3, the selection [1, 2, 3] passes `is_get_score` and fails
the result page's set comparison. -/
theorem grading_evaluators_disagree_witness :
    Question.is_get_score { id := 1, course := 1, grade := 50 } disagreeStore
        ((correct_choices disagreeStore { id := 1, course := 1, grade := 50 }).map (fun c => c.id)
          ++ [({ id := 3, question := 1, is_correct := false } : Choice).id]) = true
    ∧ questionMatches disagreeStore
        (disagreeStore.choices.filter
          (fun c => ((correct_choices disagreeStore { id := 1, course := 1, grade := 50 }).map
              (fun c2 => c2.id)
            ++ [({ id := 3, question := 1, is_correct := false } : Choice).id]).contains c.id))
        { id := 1, course := 1, grade := 50 } = false :=
  grading_evaluators_disagree disagreeStore { id := 1, course := 1, grade := 50 }
    { id := 3, question := 1, is_correct := false } (by decide) (by decide) rfl rfl

/-- C1 (amended): in `show_exam_result`, provided every question of the
course has a positive point value, the points awarded for a question are
positive exactly when the learner's selected choices for that question equal
its correct choices as sets; the rendered total score is the sum of the
per-question awarded points, and it is 0 when no question matches exactly. -/
theorem show_exam_result_grading (s : Store) (course_id submission_id : Nat)
    (ctx : ExamResultContext)
    (hok : show_exam_result course_id submission_id s = .ok ctx)
    (hpos : ∀ q ∈ question_set s course_id, 0 < q.grade) :
    (∀ q ∈ question_set s course_id,
        (0 < awardedPoints s ctx.choices q ↔ questionMatches s ctx.choices q = true))
    ∧ ctx.grade = ((question_set s course_id).map (awardedPoints s ctx.choices)).sum
    ∧ ((∀ q ∈ question_set s course_id, questionMatches s ctx.choices q = false) →
        ctx.grade = 0) := by
  rw [show_exam_result] at hok
  cases hfind : findCourse s course_id with
  | none => rw [hfind] at hok; exact Except.noConfusion hok
  | some course =>
    rw [hfind] at hok
    cases hsub : s.submissions.find? (fun sub => sub.id == submission_id) with
    | none => rw [hsub] at hok; exact Except.noConfusion hok
    | some submission =>
      rw [hsub] at hok
      have hcid : course.id = course_id := by
        rw [findCourse] at hfind
        simpa using List.find?_some hfind
      obtain rfl := (Except.ok.inj hok).symm
      dsimp only
      rw [hcid]
      refine ⟨?_, exam_total_score_eq_sum _ _ _, ?_⟩
      · intro q hq
        rw [awardedPoints]
        by_cases hm : questionMatches s
            (s.choices.filter (fun c => submission.choices.contains c.id)) q = true
        · rw [if_pos hm, hm]
          simp [hpos q hq]
        · rw [if_neg hm]
          rw [Bool.not_eq_true] at hm
          rw [hm]
          simp
      · intro hall
        rw [exam_total_score_eq_sum]
        apply List.sum_eq_zero
        intro x hx
        obtain ⟨q, hq, rfl⟩ := List.mem_map.mp hx
        rw [awardedPoints, hall q hq]
        simp

/-- C1 counterexample: the claim as stated fails when a question's grade is
not positive.  In `zeroGradeStore` the single question has grade 0: the
submission's selected choices equal the correct choices exactly, yet the
awarded points are 0, not positive, so "awarded points > 0 iff the sets are
equal" is false. -/
theorem show_exam_result_grading_counterexample :
    show_exam_result 1 1 zeroGradeStore
      = .ok { course := { id := 1, total_enrollment := 0 }, grade := 0,
              choices := [{ id := 1, question := 1, is_correct := true }] }
    ∧ questionMatches zeroGradeStore [{ id := 1, question := 1, is_correct := true }]
        { id := 1, course := 1, grade := 0 } = true
    ∧ ¬ (0 < awardedPoints zeroGradeStore [{ id := 1, question := 1, is_correct := true }]
        { id := 1, course := 1, grade := 0 }) := by
  decide

/-- C1 witness: on `examStore` the rendered result has total score 50, and
the amended grading properties hold there. -/
theorem show_exam_result_grading_witness :
    show_exam_result 1 1 examStore
      = .ok { course := { id := 1, total_enrollment := 0 }, grade := 50,
              choices := [{ id := 1, question := 1, is_correct := true }] }
    ∧ ((∀ q ∈ question_set examStore 1,
          (0 < awardedPoints examStore [{ id := 1, question := 1, is_correct := true }] q
            ↔ questionMatches examStore [{ id := 1, question := 1, is_correct := true }] q = true))
        ∧ (50 : Int) = ((question_set examStore 1).map
            (awardedPoints examStore [{ id := 1, question := 1, is_correct := true }])).sum
        ∧ ((∀ q ∈ question_set examStore 1,
              questionMatches examStore [{ id := 1, question := 1, is_correct := true }] q = false) →
            (50 : Int) = 0)) :=
  ⟨by decide,
   show_exam_result_grading examStore 1 1
     { course := { id := 1, total_enrollment := 0 }, grade := 50,
       choices := [{ id := 1, question := 1, is_correct := true }] }
     (by decide) (by decide)⟩

/-- Characterization of a successful first enrollment: when no row for the
pair exists and `enroll` succeeds, the pair's rows afterwards are exactly the
one new honor-mode row, the enrollment table grew by one row, and the
course's stored counter was incremented by one. -/
theorem enroll_fresh_spec (s : Store) (u course_id : Nat) (s2 : Store)
    (hno : pairRows u course_id s = [])
    (hok : enroll true u course_id s = .ok s2) :
    pairRows u course_id s2
      = [{ id := freshEnrollmentId s, user := u, course := course_id, mode := "honor" }]
    ∧ s2.enrollments.length = s.enrollments.length + 1
    ∧ totalEnrollmentOf s2 course_id = (totalEnrollmentOf s course_id).map (fun t => t + 1) := by
  rw [enroll] at hok
  cases hfind : findCourse s course_id with
  | none => rw [hfind] at hok; exact Except.noConfusion hok
  | some course =>
    rw [hfind] at hok
    dsimp only at hok
    have hcid : course.id = course_id := by
      have hf := hfind
      rw [findCourse] at hf
      simpa using List.find?_some hf
    have hchk : check_if_enrolled u course.id s = false := by
      rw [check_if_enrolled, hcid]
      have h1 : s.enrollments.filter (fun e => e.user == u && e.course == course_id) = [] := hno
      rw [h1]
      rfl
    rw [hchk] at hok
    rw [if_pos (show (true && !false : Bool) = true from rfl)] at hok
    obtain rfl := (Except.ok.inj hok)
    refine ⟨?_, ?_, ?_⟩
    · rw [pairRows]
      dsimp only
      rw [List.filter_append]
      have h1 : s.enrollments.filter (fun e => e.user == u && e.course == course_id) = [] := hno
      rw [h1]
      simp [hcid]
    · dsimp only
      rw [List.length_append]
      rfl
    · have hpres : ∀ c : Course,
          ((if c.id == course.id
              then { course with total_enrollment := course.total_enrollment + 1 }
              else c).id == course_id)
            = (c.id == course_id) := by
        intro c
        by_cases h : c.id == course.id
        · rw [if_pos h]
          have hcc : c.id = course.id := by simpa using h
          simp [hcc]
        · rw [if_neg h]
      rw [totalEnrollmentOf, totalEnrollmentOf, findCourse, findCourse]
      dsimp only
      rw [find?_map_of_pred _ _ hpres]
      rw [show s.courses.find? (fun c => c.id == course_id) = some course from by
        rw [findCourse] at hfind
        exact hfind]
      simp

/-- C4: for an authenticated user and an existing course with no enrollment
row for the pair, one `enroll` call creates exactly one enrollment row for
the pair, with mode "honor", adds exactly one row to the enrollment table,
and increments the course's `total_enrollment` counter by exactly 1. -/
theorem enroll_creates_enrollment (s : Store) (u course_id : Nat) (s2 : Store)
    (hno : pairRows u course_id s = [])
    (hok : enroll true u course_id s = .ok s2) :
    (pairRows u course_id s2).length = 1
    ∧ (∀ e ∈ pairRows u course_id s2, e.mode = "honor")
    ∧ s2.enrollments.length = s.enrollments.length + 1
    ∧ totalEnrollmentOf s2 course_id = (totalEnrollmentOf s course_id).map (fun t => t + 1) := by
  obtain ⟨h1, h2, h3⟩ := enroll_fresh_spec s u course_id s2 hno hok
  refine ⟨by rw [h1]; rfl, ?_, h2, h3⟩
  intro e he
  rw [h1, List.mem_singleton] at he
  rw [he]

/-- C4 witness: enrolling user 1 in course 7 of `enrollStore` yields
`postEnrollStore`, whose pair row count is 1 with mode "honor" and whose
counter moved from 3 to 4. -/
theorem enroll_creates_enrollment_witness :
    enroll true 1 7 enrollStore = .ok postEnrollStore
    ∧ (pairRows 1 7 postEnrollStore).length = 1
    ∧ (∀ e ∈ pairRows 1 7 postEnrollStore, e.mode = "honor")
    ∧ postEnrollStore.enrollments.length = enrollStore.enrollments.length + 1
    ∧ totalEnrollmentOf postEnrollStore 7 = (totalEnrollmentOf enrollStore 7).map (fun t => t + 1) := by
  have h := enroll_creates_enrollment enrollStore 1 7 postEnrollStore (by decide) (by decide)
  exact ⟨by decide, h.1, h.2.1, h.2.2.1, h.2.2.2⟩

/-- C5: sequential idempotence of enrolling.  Starting from a store with no
row for the pair, a successful `enroll` produces a store on which a second
identical `enroll` call is a no-op, leaving exactly one enrollment row for
the pair and the counter incremented by exactly 1 relative to the start. -/
theorem enroll_idempotent (s : Store) (u course_id : Nat) (s2 : Store)
    (hno : pairRows u course_id s = [])
    (hok : enroll true u course_id s = .ok s2) :
    enroll true u course_id s2 = .ok s2
    ∧ (pairRows u course_id s2).length = 1
    ∧ totalEnrollmentOf s2 course_id = (totalEnrollmentOf s course_id).map (fun t => t + 1) := by
  obtain ⟨h1, h2, h3⟩ := enroll_fresh_spec s u course_id s2 hno hok
  cases hfind : findCourse s course_id with
  | none => rw [enroll, hfind] at hok; exact Except.noConfusion hok
  | some course =>
    have h4 : totalEnrollmentOf s course_id = some course.total_enrollment := by
      rw [totalEnrollmentOf, hfind]
      rfl
    have h5 : totalEnrollmentOf s2 course_id = some (course.total_enrollment + 1) := by
      rw [h3, h4]
      rfl
    cases hfind2 : findCourse s2 course_id with
    | none => rw [totalEnrollmentOf, hfind2] at h5; exact Option.noConfusion h5
    | some c2 =>
      have hc2id : c2.id = course_id := by
        have hf := hfind2
        rw [findCourse] at hf
        simpa using List.find?_some hf
      have hchk2 : check_if_enrolled u c2.id s2 = true := by
        rw [check_if_enrolled, hc2id]
        rw [show s2.enrollments.filter (fun e => e.user == u && e.course == course_id)
          = pairRows u course_id s2 from rfl, h1]
        rfl
      refine ⟨?_, by rw [h1]; rfl, h3⟩
      rw [enroll, hfind2]
      dsimp only
      rw [hchk2]
      rfl

/-- C5 witness: a second `enroll` of user 1 into course 7 on
`postEnrollStore` is a no-op, the pair has exactly one row, and the counter
is exactly one above `enrollStore`'s. -/
theorem enroll_idempotent_witness :
    enroll true 1 7 postEnrollStore = .ok postEnrollStore
    ∧ (pairRows 1 7 postEnrollStore).length = 1
    ∧ totalEnrollmentOf postEnrollStore 7 = (totalEnrollmentOf enrollStore 7).map (fun t => t + 1) :=
  enroll_idempotent enrollStore 1 7 postEnrollStore (by decide) (by decide)

/-- C6: a registration request whose username equals an existing account's
username creates no account, logs nobody in, and redisplays the form with a
message — the account table and the session are unchanged.  Usernames are
pairwise distinct, as Django's unique constraint on `auth_user.username`
guarantees. -/
theorem duplicate_username_rejected (uname fn ln pw : String) (s : Store)
    (session : Option String)
    (hdup : uname ∈ s.accounts.map (fun a => a.username))
    (hnodup : (s.accounts.map (fun a => a.username)).Nodup) :
    registration_request_post uname fn ln pw s session
      = .ok (s, session, .registrationForm "El nombre de usuario ya existe.") := by
  have hc := List.count_eq_one_of_mem hnodup hdup
  have hlen : (s.accounts.filter (fun a => a.username == uname)).length = 1 := by
    rw [← List.countP_eq_length_filter]
    rw [List.count_eq_countP, List.countP_map] at hc
    exact hc
  obtain ⟨acc, hacc⟩ := List.length_eq_one.mp hlen
  rw [registration_request_post, hacc]

/-- C6 witness: registering the already-taken username "ana" on `regStore`
changes nothing and redisplays the form. -/
theorem duplicate_username_rejected_witness :
    ("ana" ∈ regStore.accounts.map (fun a => a.username))
    ∧ registration_request_post "ana" "X" "Y" "pw2" regStore none
        = .ok (regStore, none, .registrationForm "El nombre de usuario ya existe.") :=
  ⟨by decide,
   duplicate_username_rejected "ana" "X" "Y" "pw2" regStore none (by decide) (by decide)⟩

/-- C7 (amended): a request carrying an unknown course identifier fails with
the `Http404` "not found" failure in each modelled route (enroll, submit,
result); but in the result route a known course with an unknown submission
identifier raises the uncaught `DoesNotExist` ORM exception — surfaced by the
framework's default server-error response, not as a 404 "not found". -/
theorem unknown_identifier_responses (s : Store) (authenticated : Bool)
    (u course_id submission_id : Nat) (post : List (String × Nat)) :
    (findCourse s course_id = none →
      enroll authenticated u course_id s = .error .http404
      ∧ (submit u course_id post s).2 = .error .http404
      ∧ show_exam_result course_id submission_id s = .error .http404)
    ∧ (∀ course, findCourse s course_id = some course →
        s.submissions.find? (fun sub => sub.id == submission_id) = none →
        show_exam_result course_id submission_id s = .error .doesNotExist) := by
  constructor
  · intro hnone
    refine ⟨?_, ?_, ?_⟩
    · rw [enroll, hnone]
    · rw [submit, hnone]
    · rw [show_exam_result, hnone]
  · intro course hc hsub
    rw [show_exam_result, hc]
    dsimp only
    rw [hsub]

/-- C7 counterexample: `examStore` has course 1 but no submission 99; the
result route fails with `DoesNotExist` (an uncaught exception handled by the
framework's default server-error response), which is not the `Http404`
"not found" failure the claim asserts for unknown submission identifiers. -/
theorem unknown_identifier_responses_counterexample :
    show_exam_result 1 99 examStore = .error .doesNotExist
    ∧ ViewError.doesNotExist ≠ ViewError.http404 := by
  decide

/-- C7 witness: on the empty store every route 404s for course 1, and on
`examStore` an unknown submission id raises `DoesNotExist`. -/
theorem unknown_identifier_responses_witness :
    (enroll true 1 1 emptyStore = .error .http404
      ∧ (submit 1 1 [] emptyStore).2 = .error .http404
      ∧ show_exam_result 1 99 emptyStore = .error .http404)
    ∧ show_exam_result 1 99 examStore = .error .doesNotExist :=
  ⟨(unknown_identifier_responses emptyStore true 1 1 99 []).1 (by decide),
   (unknown_identifier_responses examStore true 1 1 99 []).2
     { id := 1, total_enrollment := 0 } (by decide) (by decide)⟩

/-- C8: for an existing course in which the user has no enrollment row,
`submit` fails with the propagating `DoesNotExist` exception from the
enrollment lookup, and no submission record is created (the store is
untouched). -/
theorem submit_without_enrollment_fails (s : Store) (u course_id : Nat)
    (post : List (String × Nat)) (course : Course)
    (hfind : findCourse s course_id = some course)
    (hno : pairRows u course_id s = []) :
    (submit u course_id post s).2 = .error .doesNotExist
    ∧ (submit u course_id post s).1 = s := by
  have hcid : course.id = course_id := by
    have hf := hfind
    rw [findCourse] at hf
    simpa using List.find?_some hf
  have hget : enrollment_get s u course.id = .error .doesNotExist := by
    rw [enrollment_get, hcid]
    rw [show s.enrollments.filter (fun e => e.user == u && e.course == course_id)
      = pairRows u course_id s from rfl, hno]
  constructor
  · rw [submit, hfind]
    dsimp only
    rw [hget]
  · rw [submit, hfind]
    dsimp only
    rw [hget]

/-- C8 witness: user 1 has no enrollment in course 7 of `enrollStore`, so a
submit attempt fails with `DoesNotExist` and leaves the store unchanged. -/
theorem submit_without_enrollment_fails_witness :
    pairRows 1 7 enrollStore = []
    ∧ (submit 1 7 [("choice1", 1)] enrollStore).2 = .error .doesNotExist
    ∧ (submit 1 7 [("choice1", 1)] enrollStore).1 = enrollStore := by
  refine ⟨by decide, ?_, ?_⟩
  · exact (submit_without_enrollment_fails enrollStore 1 7 [("choice1", 1)]
      { id := 7, total_enrollment := 3 } (by decide) (by decide)).1
  · exact (submit_without_enrollment_fails enrollStore 1 7 [("choice1", 1)]
      { id := 7, total_enrollment := 3 } (by decide) (by decide)).2

/-- C9: the course-list view returns at most 10 courses, ordered by
`total_enrollment` in descending order, and for an authenticated viewer each
returned course carries an `is_enrolled` flag that is true exactly when an
enrollment row exists for the viewer and that course. -/
theorem course_list_view_top10 (authenticated : Bool) (u : Nat) (s : Store) :
    (get_queryset authenticated u s).length ≤ 10
    ∧ ((get_queryset authenticated u s).map (fun ac => ac.course.total_enrollment)).Pairwise
        (fun a b => b ≤ a)
    ∧ (authenticated = true →
        ∀ ac ∈ get_queryset authenticated u s,
          (ac.is_enrolled = true ↔ ∃ e ∈ s.enrollments, e.user = u ∧ e.course = ac.course.id)) := by
  refine ⟨?_, ?_, ?_⟩
  · rw [get_queryset]
    rw [List.length_map]
    exact List.length_take_le 10 _
  · have hsorted : ((s.courses.insertionSort byEnrollmentDesc).take 10).Pairwise
        byEnrollmentDesc :=
      List.Pairwise.sublist (List.take_sublist 10 _)
        (List.sorted_insertionSort byEnrollmentDesc s.courses)
    rw [get_queryset]
    rw [List.map_map, List.pairwise_map]
    exact hsorted.imp (fun h => h)
  · intro hauth ac hmem
    subst hauth
    rw [get_queryset] at hmem
    rw [List.mem_map] at hmem
    obtain ⟨c, hc, rfl⟩ := hmem
    dsimp only
    rw [Bool.true_and]
    rw [check_if_enrolled, decide_eq_true_eq]
    constructor
    · intro hpos
      obtain ⟨e, he⟩ := List.exists_mem_of_ne_nil _ (List.length_pos.mp hpos)
      have hef := List.mem_filter.mp he
      have hprops : e.user = u ∧ e.course = c.id := by
        have h2 := hef.2
        simpa using h2
      exact ⟨e, hef.1, hprops.1, hprops.2⟩
    · rintro ⟨e, hemem, hu, hcrs⟩
      have hin : e ∈ s.enrollments.filter (fun e2 => e2.user == u && e2.course == c.id) :=
        List.mem_filter.mpr ⟨hemem, by simp [hu, hcrs]⟩
      exact List.length_pos.mpr (List.ne_nil_of_mem hin)

/-- C9 witness: on `listStore` the view lists courses 2, 1, 3 (enrollment
counters 9, 5, 1) and flags only course 2 as enrolled for user 1. -/
theorem course_list_view_top10_witness :
    ((get_queryset true 1 listStore).length ≤ 10
      ∧ ((get_queryset true 1 listStore).map (fun ac => ac.course.total_enrollment)).Pairwise
          (fun a b => b ≤ a)
      ∧ (true = true →
          ∀ ac ∈ get_queryset true 1 listStore,
            (ac.is_enrolled = true
              ↔ ∃ e ∈ listStore.enrollments, e.user = 1 ∧ e.course = ac.course.id)))
    ∧ (get_queryset true 1 listStore).map (fun ac => (ac.course.id, ac.is_enrolled))
        = [(2, true), (1, false), (3, false)] :=
  ⟨course_list_view_top10 true 1 listStore, by decide⟩

end OnlineCourse
